import Mathlib

/-!
Verification of the mongodbforms document-form layer and the item-list views
of this repository, as a shallow embedding in Lean 4.

Each definition below is translated from a function of the source
(src/mongodbforms/documents.py, src/list/views.py); where a definition
instead follows the specification's words (for comparing code against
spec), its name and doc comment say so.  Python optional arguments that
default to None are `Option`; Python truthiness of an optional list
(`if fields:`) is `optListTruthy`; a raised exception is an `Except.error`
or a dedicated outcome constructor.
-/

/-- A Python value as it appears in form cleaned data.  Django's
EMPTY_VALUES is the tuple (None, '', [], (), {}); membership in it is
`PyValue.isEmptyValue`. -/
inductive PyValue where
  | vnone : PyValue
  | vstr (s : String) : PyValue
  | vint (n : Int) : PyValue
  deriving Repr, DecidableEq

/-- Membership of a value in django's EMPTY_VALUES (None, '', [], (), {}). -/
def PyValue.isEmptyValue : PyValue → Bool
  | .vnone => true
  | .vstr s => s = ""
  | .vint _ => false

/-- Python truthiness of an optional list argument: None and the empty
list are falsy, a non-empty list is truthy (`if fields:` in the source). -/
def optListTruthy (o : Option (List String)) : Bool :=
  match o with
  | none => false
  | some l => !l.isEmpty

/-- A schema field of a document, as far as fields_for_document needs it:
its name and whether it is the internal ObjectId identity field.  The
schema (`document._fields_ordered`) is a list of these in declaration
order. -/
structure DocField where
  name : String
  isObjectId : Bool
  deriving Repr, DecidableEq

/-- Translation of the first skip in fields_for_document:
`if fields and not f.name in fields: continue`.  Note the Python
truthiness test on `fields`: an empty allow-list skips nothing. -/
def skippedByFields (fields : Option (List String)) (name : String) : Bool :=
  match fields with
  | none => false
  | some l => !l.isEmpty && !l.contains name

/-- Translation of the second skip in fields_for_document:
`if exclude and f.name in exclude: continue`. -/
def skippedByExclude (exclude : Option (List String)) (name : String) : Bool :=
  match exclude with
  | none => false
  | some l => !l.isEmpty && l.contains name

/-- Translation of fields_for_document (src/mongodbforms/documents.py,
lines 240-268).  The document's fields are visited in schema declaration
order; ObjectId identity fields are skipped, then the fields/exclude
skips run, then the effective generator (`formfield_callback` or
`field_generator.generate`) is invoked; only a field for which it yields
a descriptor (`if formfield:`) is appended.  The result is the ordered
association list underlying the returned SortedDict. -/
def fields_for_document {α : Type} (doc : List DocField)
    (fields exclude : Option (List String)) (gen : DocField → Option α) :
    List (String × α) :=
  doc.filterMap fun f =>
    if f.isObjectId then none
    else if skippedByFields fields f.name then none
    else if skippedByExclude exclude f.name then none
    else match gen f with
      | some d => some (f.name, d)
      | none => none

/-- The inclusion condition exactly as the claim words it: a field is
included iff (fields is unset OR name in fields) AND (exclude is unset OR
name not in exclude). -/
def claimIncluded (fields exclude : Option (List String)) (name : String) : Bool :=
  (fields.isNone || (fields.getD []).contains name) &&
    (exclude.isNone || !(exclude.getD []).contains name)

/-- The form-descriptor mapping as the claim describes it: exactly the
non-identity schema fields satisfying `claimIncluded` for which the
generator yields a descriptor, in schema declaration order. -/
def fields_for_document_claim {α : Type} (doc : List DocField)
    (fields exclude : Option (List String)) (gen : DocField → Option α) :
    List (String × α) :=
  doc.filterMap fun f =>
    if !f.isObjectId && claimIncluded fields exclude f.name then
      match gen f with
      | some d => some (f.name, d)
      | none => none
    else none

/-- The inclusion condition the code actually implements: because of
Python truthiness, an EMPTY fields (or exclude) list behaves exactly like
an unset one. -/
def amendedIncluded (fields exclude : Option (List String)) (name : String) : Bool :=
  (match fields with
    | none => true
    | some l => l.isEmpty || l.contains name) &&
  (match exclude with
    | none => true
    | some l => l.isEmpty || !l.contains name)

/-- The form-descriptor mapping under the amended inclusion condition. -/
def fields_for_document_amended {α : Type} (doc : List DocField)
    (fields exclude : Option (List String)) (gen : DocField → Option α) :
    List (String × α) :=
  doc.filterMap fun f =>
    if !f.isObjectId && amendedIncluded fields exclude f.name then
      match gen f with
      | some d => some (f.name, d)
      | none => none
    else none

theorem amendedIncluded_eq_not_skipped (fields exclude : Option (List String))
    (n : String) :
    amendedIncluded fields exclude n =
      (!skippedByFields fields n && !skippedByExclude exclude n) := by
  cases fields <;> cases exclude <;>
    simp only [amendedIncluded, skippedByFields, skippedByExclude] <;>
    first
      | rfl
      | (rename_i l
         cases hE : l.isEmpty <;> cases hc : l.contains n <;> simp [hE, hc])

theorem fields_for_document_pointwise {α : Type}
    (fields exclude : Option (List String)) (gen : DocField → Option α)
    (f : DocField) :
    (if f.isObjectId then none
      else if skippedByFields fields f.name then none
      else if skippedByExclude exclude f.name then none
      else match gen f with
        | some d => some (f.name, d)
        | none => none) =
    (if !f.isObjectId && amendedIncluded fields exclude f.name then
      match gen f with
      | some d => some (f.name, d)
      | none => (none : Option (String × α))
    else none) := by
  rcases f with ⟨n, oid⟩
  rw [amendedIncluded_eq_not_skipped]
  cases oid <;>
    cases hs₁ : skippedByFields fields n <;>
    cases hs₂ : skippedByExclude exclude n <;>
    simp [hs₁, hs₂]

/-- C1: as stated, the claim fails on the code.  With a set-but-empty
allow-list (`fields = some []`) the code includes every field, because the
Python truthiness test `if fields and ...` treats an empty list like an
unset one, while the claim's condition "(fields is unset OR name in
fields)" includes none of them. -/
theorem c1_fields_for_document_counterexample :
    fields_for_document [⟨"a", false⟩] (some []) none (fun _ => some 0) ≠
      fields_for_document_claim [⟨"a", false⟩] (some []) none (fun _ => some 0) := by
  decide

/-- C1 amended: for every document type and fields/exclude configuration,
the mapping produced by fields_for_document contains exactly the
non-identity schema fields whose name satisfies (fields is unset or EMPTY
or name in fields) AND (exclude is unset or empty or name not in
exclude) and for which the generator yields a descriptor, in schema
declaration order. -/
theorem c1_fields_for_document_amended {α : Type} (doc : List DocField)
    (fields exclude : Option (List String)) (gen : DocField → Option α) :
    fields_for_document doc fields exclude gen =
      fields_for_document_amended doc fields exclude gen := by
  unfold fields_for_document fields_for_document_amended
  congr 1
  funext f
  exact fields_for_document_pointwise fields exclude gen f

/-- A schema field as _get_validation_exclusions needs it: its name and
whether the underlying model field is required. -/
structure ExclField where
  name : String
  required : Bool
  deriving Repr, DecidableEq

/-- Python `cleaned_data.get(name, None)` over an association list. -/
def pyGet (cleaned : List (String × PyValue)) (n : String) : PyValue :=
  match cleaned.find? (fun p => p.1 = n) with
  | some p => p.2
  | none => .vnone

/-- The per-field condition of the elif chain in
BaseDocumentForm._get_validation_exclusions (src/mongodbforms/documents.py,
lines 373-411): a field is appended to the exclusion list when it is not
on the form, or the Meta fields/exclude configuration restricts it away
(Python truthiness on those optional lists again), or it already has a
field error, or it is optional and its cleaned value is in EMPTY_VALUES. -/
def exclusionCond (formFields : List String)
    (metaFields metaExclude : Option (List String)) (errKeys : List String)
    (cleaned : List (String × PyValue)) (f : ExclField) : Bool :=
  if !formFields.contains f.name then true
  else if optListTruthy metaFields && !(metaFields.getD []).contains f.name then true
  else if optListTruthy metaExclude && (metaExclude.getD []).contains f.name then true
  else if errKeys.contains f.name then true
  else !f.required && (pyGet cleaned f.name).isEmptyValue

/-- Translation of BaseDocumentForm._get_validation_exclusions: iterate the
instance's schema fields and collect the names satisfying the elif chain. -/
def get_validation_exclusions (instFields : List ExclField)
    (formFields : List String) (metaFields metaExclude : Option (List String))
    (errKeys : List String) (cleaned : List (String × PyValue)) : List String :=
  instFields.filterMap fun f =>
    if exclusionCond formFields metaFields metaExclude errKeys cleaned f then
      some f.name
    else none

/-- C3: as stated, the claim fails on the code.  A schema field that is
required with a non-empty cleaned value IS placed on the exclusion list
whenever it is not part of the form's active field set (here the form has
no active fields at all), contradicting the claim's quantification over
"any fields/exclude configuration". -/
theorem c3_validation_exclusions_counterexample :
    (ExclField.mk "x" true).required = true ∧
      (pyGet [("x", .vstr "v")] "x").isEmptyValue = false ∧
      "x" ∈ get_validation_exclusions [⟨"x", true⟩] [] none none []
        [("x", .vstr "v")] := by
  refine ⟨rfl, rfl, ?_⟩
  simp [get_validation_exclusions, exclusionCond]

/-- C3 amended: a schema field that is required and has a non-empty
cleaned value is never excluded PROVIDED it is on the form's active field
set, the Meta fields/exclude configuration does not restrict it away, and
it has no prior field error.  (Schema field names are unique: the
instance's field container is a dict.) -/
theorem c3_validation_exclusions_amended (instFields : List ExclField)
    (formFields : List String) (metaFields metaExclude : Option (List String))
    (errKeys : List String) (cleaned : List (String × PyValue)) (f : ExclField)
    (hnodup : (instFields.map ExclField.name).Nodup)
    (hmem : f ∈ instFields)
    (hreq : f.required = true)
    (hval : (pyGet cleaned f.name).isEmptyValue = false)
    (hform : f.name ∈ formFields)
    (hmf : optListTruthy metaFields = true → f.name ∈ metaFields.getD [])
    (hme : optListTruthy metaExclude = true → f.name ∉ metaExclude.getD [])
    (herr : f.name ∉ errKeys) :
    f.name ∉ get_validation_exclusions instFields formFields metaFields
      metaExclude errKeys cleaned := by
  intro habs
  simp only [get_validation_exclusions, List.mem_filterMap] at habs
  obtain ⟨g, hg, hcond⟩ := habs
  have hcondT : exclusionCond formFields metaFields metaExclude errKeys cleaned g = true := by
    by_cases h : exclusionCond formFields metaFields metaExclude errKeys cleaned g = true
    · exact h
    · simp [h] at hcond
  have hgname : g.name = f.name := by
    simpa [hcondT] using hcond
  have hgf : g = f := List.inj_on_of_nodup_map hnodup hg hmem hgname
  rw [hgf] at hcondT
  have h1 : formFields.contains f.name = true := by simpa using hform
  have h2 : (optListTruthy metaFields && !(metaFields.getD []).contains f.name) = false := by
    cases ht : optListTruthy metaFields
    · simp
    · simpa using hmf ht
  have h3 : (optListTruthy metaExclude && (metaExclude.getD []).contains f.name) = false := by
    cases ht : optListTruthy metaExclude
    · simp
    · simpa using hme ht
  have h4 : errKeys.contains f.name = false := by simpa using herr
  simp [exclusionCond, h1, h2, h3, h4, hreq, hval] at hcondT
  rcases hcondT with h | ⟨ht, hnin⟩ | ⟨ht, hin⟩ | h
  · exact h hform
  · exact hnin (hmf ht)
  · exact hme ht hin
  · exact herr h

/-- Witness for the amended C3 theorem at a concrete form
configuration. -/
theorem c3_validation_exclusions_amended_witness :
    "x" ∉ get_validation_exclusions [⟨"x", true⟩] ["x"] none none []
      [("x", .vstr "v")] :=
  c3_validation_exclusions_amended [⟨"x", true⟩] ["x"] none none []
    [("x", .vstr "v")] ⟨"x", true⟩ (by simp) (by simp) rfl rfl (by simp)
    (by simp [optListTruthy]) (by simp [optListTruthy]) (by simp)

/-- The document instance as save_instance manipulates it: its `_data`
mapping and its `_changed_fields` list. -/
structure DocInstance where
  data : List (String × PyValue)
  changedFields : List String
  deriving Repr, DecidableEq

/-- Python `list.remove(x)` wrapped in try/except ValueError: drop the
first occurrence of `x`, a no-op when `x` is absent. -/
def removeFirst (l : List String) (x : String) : List String :=
  match l with
  | [] => []
  | a :: r => if a = x then r else a :: removeFirst r x

/-- The `_changed_fields` cleanup loop of save_instance: remove each
delete-before-save name (first occurrence) from the changed-fields list. -/
def removeChanged (changed : List String) (dbs : List String) : List String :=
  dbs.foldl removeFirst changed

/-- What a run of save_instance did: the returned value (or the raised
ValueError message) and the `_data` snapshot of every `instance.save()`
call it performed, in order. -/
structure SaveOutcome where
  result : Except String DocInstance
  persistedWrites : List (List (String × PyValue))
  deriving Repr

/-- Translation of save_instance (src/mongodbforms/documents.py, lines
170-205) on the construct=False path the form's save method uses.  If the
form's error mapping is non-empty a ValueError is raised and nothing is
persisted.  Otherwise, when commit is set and the instance has a save
method: if the form carries a `_delete_before_save` list, `_data` is
swapped for a copy without those fields, the changed-fields list is
cleaned, `instance.save()` runs against the reduced data, and the
original `_data` object is put back before returning. -/
def save_instance (formErrors : List (String × List String))
    (deleteBeforeSave : Option (List String)) (commit hasSave : Bool)
    (inst : DocInstance) : SaveOutcome :=
  if !formErrors.isEmpty then
    { result := .error "the document could not be saved because the data didn't validate"
      persistedWrites := [] }
  else if commit && hasSave then
    match deleteBeforeSave with
    | some dbs =>
      let newData := inst.data.filter fun p => !dbs.contains p.1
      { result := .ok { data := inst.data
                        changedFields := removeChanged inst.changedFields dbs }
        persistedWrites := [newData] }
    | none =>
      { result := .ok inst, persistedWrites := [inst.data] }
  else
    { result := .ok inst, persistedWrites := [] }

/-- Modelled from the host framework: django's BaseForm.full_clean first
sets the error mapping to an empty ErrorDict and returns immediately when
the form is not bound (`data is None`), so a form constructed with no
submitted data has an empty error mapping and never runs cleaning. -/
def unboundFormErrors : List (String × List String) := []

/-- C2: as stated, the claim fails on the code.  A form constructed with
no submitted data has an empty error mapping (`unboundFormErrors`), and
save_instance then performs the commit silently — the result is the
instance, not the illegal-save ValueError, and one persisted write
happens — instead of rejecting the never-cleaned form. -/
theorem c2_save_instance_counterexample :
    (save_instance unboundFormErrors none true true
        ⟨[("text", .vstr "")], []⟩).result =
      .ok ⟨[("text", .vstr "")], []⟩ ∧
    (save_instance unboundFormErrors none true true
        ⟨[("text", .vstr "")], []⟩).persistedWrites =
      [[("text", .vstr "")]] := by
  constructor <;> rfl

/-- C2 amended: saving raises the illegal-save ValueError and persists
nothing exactly when the form's error mapping is non-empty; a form
constructed with no submitted data and no errors is NOT rejected — its
empty error mapping lets save_instance commit silently. -/
theorem c2_save_instance_amended (formErrors : List (String × List String))
    (deleteBeforeSave : Option (List String)) (commit hasSave : Bool)
    (inst : DocInstance) :
    (formErrors ≠ [] →
      (save_instance formErrors deleteBeforeSave commit hasSave inst).persistedWrites = [] ∧
      ∃ m, (save_instance formErrors deleteBeforeSave commit hasSave inst).result =
        .error m) ∧
    (save_instance unboundFormErrors none true true inst).result = .ok inst ∧
    (save_instance unboundFormErrors none true true inst).persistedWrites =
      [inst.data] := by
  refine ⟨fun h => ?_, rfl, rfl⟩
  have hne : formErrors.isEmpty = false := by
    cases formErrors with
    | nil => exact absurd rfl h
    | cons a r => rfl
  constructor
  · simp [save_instance, hne]
  · exact ⟨"the document could not be saved because the data didn't validate",
      by simp [save_instance, hne]⟩

/-- C10: for every instance and delete-before-save list, the write that
save_instance persists contains exactly the data entries whose field name
is not on the list, while the data mapping of the returned instance is
the original one — the removed fields are present again, with their
original values, once save_instance returns. -/
theorem c10_save_instance_restores_data (inst : DocInstance)
    (dbs : List String) :
    (save_instance [] (some dbs) true true inst).persistedWrites =
      [inst.data.filter fun p => !dbs.contains p.1] ∧
    (∀ n v, (n, v) ∈ inst.data.filter (fun p => !dbs.contains p.1) ↔
      ((n, v) ∈ inst.data ∧ n ∉ dbs)) ∧
    (∀ i, (save_instance [] (some dbs) true true inst).result = .ok i →
      i.data = inst.data) := by
  refine ⟨rfl, fun n v => ?_, fun i h => ?_⟩
  · simp [List.mem_filter]
  · have : (save_instance [] (some dbs) true true inst).result =
        .ok { data := inst.data
              changedFields := removeChanged inst.changedFields dbs } := rfl
    rw [this] at h
    cases h
    rfl

/-- A mongo query predicate as validate_unique builds it for a
unique-with peer that is a ListField of ReferenceFields: `Q(peer=pk)` is a
per-element membership predicate (mongo matches an array field containing
the value), `Q(peer__size=n)` is the cardinality predicate, and `&` is
conjunction. -/
inductive QPred where
  | containsRef (field : String) (pk : Nat) : QPred
  | size (field : String) (n : Nat) : QPred
  | and (a b : QPred) : QPred
  deriving Repr, DecidableEq

/-- Evaluation of a query predicate against a candidate document, seen as
a mapping from field name to its list of referenced pks.  `Q(field=pk)`
on an array field matches documents whose array contains pk;
`Q(field__size=n)` matches arrays of length n (mongo semantics of the
query operators the source emits). -/
def QPred.eval : QPred → (String → List Nat) → Bool
  | .containsRef f pk, doc => (doc f).contains pk
  | .size f n, doc => (doc f).length == n
  | .and a b, doc => a.eval doc && b.eval doc

/-- Translation of the ListField(ReferenceField) branch of
BaseDocumentForm.validate_unique (src/mongodbforms/documents.py, lines
479-484):
`q = reduce(lambda x, y: x & y, [Q(**{u_with: k.pk}) for k in u_with_attr])`
followed by `q = q & Q(**{size_key: len(u_with_attr)})`.  Python's
`reduce` without an initial value raises TypeError on an empty sequence,
which the translation surfaces as an error. -/
def buildUniqueWithRefQ (uWith : String) (pks : List Nat) :
    Except String QPred :=
  match pks with
  | [] => .error "TypeError: reduce() of empty sequence with no initial value"
  | p :: rest =>
    let base := rest.foldl (fun q k => QPred.and q (QPred.containsRef uWith k))
      (QPred.containsRef uWith p)
    .ok (QPred.and base (QPred.size uWith pks.length))

theorem evalQ_foldl_and (uWith : String) (doc : String → List Nat)
    (rest : List Nat) (acc : QPred) :
    QPred.eval (rest.foldl (fun q k => QPred.and q (QPred.containsRef uWith k)) acc)
        doc =
      (acc.eval doc && rest.all fun k => (doc uWith).contains k) := by
  induction rest generalizing acc with
  | nil => simp
  | cons k r ih =>
    simp only [List.foldl_cons, List.all_cons, ih, QPred.eval]
    cases acc.eval doc <;> cases hk : (doc uWith).contains k <;>
      simp [Bool.and_assoc]

/-- C4: as stated, the claim fails on the code.  For a unique-with peer
collection that is EMPTY, validate_unique does not build the
conjunction-plus-cardinality filter at all: the `reduce` over the empty
list of per-element predicates raises TypeError. -/
theorem c4_unique_with_counterexample :
    buildUniqueWithRefQ "refs" [] =
      .error "TypeError: reduce() of empty sequence with no initial value" := by
  rfl

/-- C4 amended: for every NON-EMPTY collection-of-references peer, the
filter validate_unique builds is the conjunction of one per-element
membership predicate per element plus a cardinality predicate, so it
matches a candidate exactly when the candidate's collection contains
every listed reference AND has the same element count; in particular a
candidate whose collection extends the instance's collection (same
references, same order, strictly greater length) never matches. -/
theorem c4_unique_with_amended (uWith : String) (pks : List Nat)
    (h : pks ≠ []) :
    ∃ q, buildUniqueWithRefQ uWith pks = .ok q ∧
      (∀ doc : String → List Nat,
        q.eval doc =
          ((pks.all fun p => (doc uWith).contains p) &&
            ((doc uWith).length == pks.length))) ∧
      (∀ doc : String → List Nat, ∀ extra : List Nat, extra ≠ [] →
        doc uWith = pks ++ extra → q.eval doc = false) := by
  match pks, h with
  | p :: rest, _ =>
    refine ⟨_, rfl, fun doc => ?_, fun doc extra hex hdoc => ?_⟩
    · simp [QPred.eval, evalQ_foldl_and, List.all_cons]
    · simp only [QPred.eval, evalQ_foldl_and]
      have hlen : ((doc uWith).length == (p :: rest).length) = false := by
        rw [hdoc]
        simp only [beq_eq_false_iff_ne, ne_eq, List.length_cons,
          List.length_append]
        intro hcontra
        have hzero : extra.length = 0 := by omega
        exact hex (List.eq_nil_of_length_eq_zero hzero)
      rw [hlen, Bool.and_false]

/-- Witness for the amended C4 theorem at the concrete peer collection
[1, 2]. -/
theorem c4_unique_with_amended_witness :
    ∃ q, buildUniqueWithRefQ "refs" [1, 2] = .ok q ∧
      (∀ doc : String → List Nat,
        q.eval doc =
          (([1, 2].all fun p => (doc "refs").contains p) &&
            ((doc "refs").length == [1, 2].length))) ∧
      (∀ doc : String → List Nat, ∀ extra : List Nat, extra ≠ [] →
        doc "refs" = [1, 2] ++ extra → q.eval doc = false) :=
  c4_unique_with_amended "refs" [1, 2] (by simp)

/-- Translation of the identity exclusion in validate_unique
(src/mongodbforms/documents.py, lines 490-491): the matching candidates
(given by their pk) are narrowed with `pk__ne=self.instance.pk` when and
only when `self.instance.pk is not None`. -/
def applyPkExclusion (pk : Option Nat) (cands : List (Option Nat)) :
    List (Option Nat) :=
  match pk with
  | none => cands
  | some p => cands.filter fun d => d ≠ some p

/-- The count the uniqueness check compares against zero. -/
def uniqueQueryCount (pk : Option Nat) (cands : List (Option Nat)) : Nat :=
  (applyPkExclusion pk cands).length

/-- C5: the uniqueness count query excludes the instance's own identity
exactly when the instance has a non-None pk — a candidate carrying the
instance's own pk is never counted on edit — and applies no identity
exclusion at all when the instance is new (pk is None). -/
theorem c5_pk_exclusion (cands : List (Option Nat)) :
    applyPkExclusion none cands = cands ∧
      (∀ p : Nat, some p ∉ applyPkExclusion (some p) cands) ∧
      (∀ p : Nat, ∀ d : Option Nat,
        d ∈ applyPkExclusion (some p) cands ↔ (d ∈ cands ∧ d ≠ some p)) := by
  refine ⟨rfl, fun p hp => ?_, fun p d => ?_⟩
  · simp only [applyPkExclusion, List.mem_filter] at hp
    exact (by simpa using hp.2 : some p ≠ some p) rfl
  · simp [applyPkExclusion, List.mem_filter]

/-- Index of the last occurrence of a character in a list of characters,
if any (Python str.rfind, restricted to what splitext needs). -/
def lastIdxOf (c : Char) (l : List Char) : Option Nat :=
  (List.range l.length).foldl
    (fun acc i => if l.get? i = some c then some i else acc) none

/-- Translation of posixpath.splitext, which _get_unique_filename calls:
split off the extension at the last dot, provided that dot lies after the
last path separator and at least one non-dot character of the base name
precedes it (so ".bashrc" keeps no extension). -/
def splitext (p : String) : String × String :=
  let l := p.data
  let dotIdx := lastIdxOf '.' l
  let sepIdx := lastIdxOf '/' l
  match dotIdx with
  | none => (p, "")
  | some di =>
    let fi := match sepIdx with
      | none => 0
      | some si => si + 1
    if fi ≤ di ∧ ((l.drop fi).take (di - fi)).any (fun c => c ≠ '.') then
      (String.mk (l.take di), String.mk (l.drop di))
    else (p, "")

/-- The k-th name the collision loop of _get_unique_filename tries: the
original upload name for k = 0, then root_1.ext, root_2.ext, ...
(`"%s_%s%s" % (file_root, next(count), file_ext)`; the single-argument
os.path.join is the identity). -/
def candName (name root ext : String) : Nat → String
  | 0 => name
  | Nat.succ k => root ++ "_" ++ toString (k + 1) ++ ext

/-- The while loop of _get_unique_filename, fuel-bounded: starting at
candidate index k, return the first candidate name for which
`fs.exists(filename=name)` is false. -/
def probeFrom (ex : String → Bool) (name root ext : String) :
    Nat → Nat → Option String
  | 0, _ => none
  | fuel + 1, k =>
    if ex (candName name root ext k) then probeFrom ex name root ext fuel (k + 1)
    else some (candName name root ext k)

/-- Translation of _get_unique_filename (src/mongodbforms/documents.py,
lines 30-37).  `ex` is the blob namespace's `exists` predicate; the fuel
bounds the linear probe, which in the source loops until a free name is
found. -/
def get_unique_filename (ex : String → Bool) (name : String) (fuel : Nat) :
    Option String :=
  probeFrom ex name (splitext name).1 (splitext name).2 fuel 0

theorem probeFrom_first_free (ex : String → Bool) (name root ext : String) :
    ∀ fuel k s, probeFrom ex name root ext fuel k = some s →
      ex s = false ∧ ∃ m, k ≤ m ∧ s = candName name root ext m ∧
        ∀ j, k ≤ j → j < m → ex (candName name root ext j) = true := by
  intro fuel
  induction fuel with
  | zero => intro k s h; exact absurd h (by simp [probeFrom])
  | succ n ih =>
    intro k s h
    by_cases hex : ex (candName name root ext k) = true
    · rw [probeFrom, if_pos hex] at h
      obtain ⟨hfree, m, hkm, hs, hall⟩ := ih (k + 1) s h
      refine ⟨hfree, m, by omega, hs, fun j hkj hjm => ?_⟩
      by_cases hj : j = k
      · rwa [hj]
      · exact hall j (by omega) hjm
    · rw [probeFrom, if_neg hex] at h
      cases h
      exact ⟨by simpa using hex, k, le_refl k, rfl, fun j h1 h2 => by omega⟩

/-- C6: _get_unique_filename returns the original name when no blob with
that name exists in the target namespace, and in general the name it
returns is the first free name in the probe sequence original,
root_1.ext, root_2.ext, ... — every earlier candidate was taken and the
returned one is free.  In particular, with "photo.jpg" already stored,
uploading a second file named "photo.jpg" stores it as "photo_1.jpg". -/
theorem c6_get_unique_filename (ex : String → Bool) (name : String)
    (fuel : Nat) :
    (ex name = false → 0 < fuel → get_unique_filename ex name fuel = some name) ∧
    (∀ s, get_unique_filename ex name fuel = some s →
      ex s = false ∧ ∃ m, s = candName name (splitext name).1 (splitext name).2 m ∧
        ∀ j, j < m →
          ex (candName name (splitext name).1 (splitext name).2 j) = true) ∧
    get_unique_filename (fun s => s == "photo.jpg") "photo.jpg" 2 =
      some "photo_1.jpg" := by
  refine ⟨?_, ?_, by decide⟩
  · intro hfree hfuel
    match fuel, hfuel with
    | n + 1, _ =>
      simp [get_unique_filename, probeFrom, candName, hfree]
  · intro s h
    obtain ⟨hfree, m, _, hs, hall⟩ := probeFrom_first_free ex name
      (splitext name).1 (splitext name).2 fuel 0 s h
    exact ⟨hfree, m, hs, fun j hj => hall j (Nat.zero_le j) hj⟩

/-- A GridFS file proxy as construct_instance sees it on a singular file
field: an object identity (so "same handle reference" is expressible) and
the grid_id of the committed blob, None when nothing is stored. -/
structure FileProxy where
  ident : Nat
  gridId : Option Nat
  deriving Repr, DecidableEq

/-- The cleaned value a form supplies for a singular file field.  A fresh
upload has a `.file` attribute; an untouched field round-trips the
GridFSProxy the form was initialised with (no `.file`, so the code's
`upload.file.seek(0)` raises AttributeError); None means no value. -/
inductive FileUpload where
  | absent : FileUpload
  | existingProxy (p : FileProxy) : FileUpload
  | fresh (uploadName : String) : FileUpload
  deriving Repr, DecidableEq

/-- What the singular-file branch of construct_instance did to the field:
the grid_ids it deleted, the storage names it wrote, how many times it
called _get_unique_filename, and the value left on the instance field. -/
structure FileFieldTrace where
  deleted : List Nat
  written : List String
  namesGenerated : Nat
  finalValue : FileProxy
  deriving Repr, DecidableEq

/-- Translation of the singular FileField branch of construct_instance
(src/mongodbforms/documents.py, lines 147-165).  `prev` is
`getattr(instance, f.name)`; `ex` is the blob namespace and `newGid` the
grid_id the put assigns.  cleaned value None: the field is left alone.  A
fresh upload: the previous blob is deleted if one was committed, a unique
name is generated, the content is put under it.  An already-stored proxy
(the no-new-upload edit): `upload.file` raises AttributeError, the except
branch re-reads the proxy and assigns it back unchanged. -/
def constructSingleFileField (prev : FileProxy) (upload : FileUpload)
    (ex : String → Bool) (fuel : Nat) (newGid : Nat) : FileFieldTrace :=
  match upload with
  | .absent =>
    { deleted := [], written := [], namesGenerated := 0, finalValue := prev }
  | .existingProxy p =>
    { deleted := [], written := [], namesGenerated := 0, finalValue := p }
  | .fresh uploadName =>
    let del := match prev.gridId with
      | some g => [g]
      | none => []
    let fn := (get_unique_filename ex uploadName fuel).getD uploadName
    { deleted := del, written := [fn], namesGenerated := 1
      finalValue := { ident := prev.ident, gridId := some newGid } }

/-- C7: editing an existing document with no new upload for a file field
leaves the stored handle unchanged — whether the form's cleaned value is
None or the previously stored proxy itself, the branch deletes no blob,
writes no blob, generates no storage name, and the instance field ends as
the very same handle it started with. -/
theorem c7_construct_file_noop (prev : FileProxy) (upload : FileUpload)
    (ex : String → Bool) (fuel : Nat) (newGid : Nat)
    (h : upload = .absent ∨ upload = .existingProxy prev) :
    (constructSingleFileField prev upload ex fuel newGid).deleted = [] ∧
    (constructSingleFileField prev upload ex fuel newGid).written = [] ∧
    (constructSingleFileField prev upload ex fuel newGid).namesGenerated = 0 ∧
    (constructSingleFileField prev upload ex fuel newGid).finalValue = prev := by
  rcases h with h | h <;> subst h <;>
    exact ⟨rfl, rfl, rfl, rfl⟩

/-- Witness for C7 at a concrete stored handle. -/
theorem c7_construct_file_noop_witness :
    (constructSingleFileField ⟨5, some 9⟩ (.existingProxy ⟨5, some 9⟩)
        (fun _ => false) 1 3).deleted = [] ∧
    (constructSingleFileField ⟨5, some 9⟩ (.existingProxy ⟨5, some 9⟩)
        (fun _ => false) 1 3).written = [] ∧
    (constructSingleFileField ⟨5, some 9⟩ (.existingProxy ⟨5, some 9⟩)
        (fun _ => false) 1 3).namesGenerated = 0 ∧
    (constructSingleFileField ⟨5, some 9⟩ (.existingProxy ⟨5, some 9⟩)
        (fun _ => false) 1 3).finalValue = ⟨5, some 9⟩ :=
  c7_construct_file_noop ⟨5, some 9⟩ (.existingProxy ⟨5, some 9⟩)
    (fun _ => false) 1 3 (Or.inr rfl)

/-- One bound form of an embedded-document formset as the save loop sees
it: whether has_changed() is true, whether the form is one of the initial
forms, the cleaned DELETE flag, and the embedded sub-document instance
the form produced. -/
structure EmbFormState where
  hasChanged : Bool
  isInitial : Bool
  deleteFlag : Bool
  instanceVal : PyValue
  deriving Repr, DecidableEq

/-- Translation of the loop of BaseDocumentFormSet.save
(src/mongodbforms/documents.py, lines 654-675) in the embedded case
(commit=False, as EmbeddedDocumentFormSet.save invokes it): skip a form
that has not changed and is not an initial form; obtain the form's
instance; a form flagged DELETE is dropped (an embedded object has no
delete method, the AttributeError branch just omits it); otherwise the
instance joins the result list. -/
def formsetSaveObjs (forms : List EmbFormState) : List PyValue :=
  forms.filterMap fun f =>
    if !f.hasChanged && !f.isInitial then none
    else if f.deleteFlag then none
    else some f.instanceVal

/-- The parent document as EmbeddedDocumentFormSet.save touches it: the
embedded collection field and how many times its save method ran. -/
structure ParentDoc where
  embeddedField : List PyValue
  saveCount : Nat
  deriving Repr, DecidableEq

/-- Translation of EmbeddedDocumentFormSet.save (src/mongodbforms/
documents.py, lines 968-993) with commit: collect the submission's
resulting sub-documents, set the parent's embedded collection field to
them (`objs or []` — full replacement, never a merge with the existing
collection), and save the parent once. -/
def embeddedFormsetSave (parent : ParentDoc) (forms : List EmbFormState) :
    ParentDoc × List PyValue :=
  let objs := formsetSaveObjs forms
  ({ embeddedField := if objs.isEmpty then [] else objs
     saveCount := parent.saveCount + 1 }, objs)

/-- C8: saving an embedded formset replaces the parent's embedded
collection field with exactly the current submission's non-deleted,
non-skipped sub-documents — whatever the collection held before — and
persists the parent exactly once.  In particular, editing a 3-element
collection and deleting the element at position 1 leaves the collection
[element 0, element 2]: length 2, original values, no duplication. -/
theorem c8_embedded_formset_save (parent : ParentDoc)
    (forms : List EmbFormState) :
    ((embeddedFormsetSave parent forms).1.embeddedField =
      formsetSaveObjs forms) ∧
    ((embeddedFormsetSave parent forms).1.saveCount = parent.saveCount + 1) ∧
    (∀ a b c : PyValue, ∀ prevField : List PyValue, ∀ n : Nat,
      (embeddedFormsetSave ⟨prevField, n⟩
          [⟨true, true, false, a⟩, ⟨true, true, true, b⟩,
            ⟨true, true, false, c⟩]).1.embeddedField = [a, c]) := by
  refine ⟨?_, rfl, fun a b c prevField n => rfl⟩
  show (if (formsetSaveObjs forms).isEmpty then [] else formsetSaveObjs forms) =
    formsetSaveObjs forms
  cases h : (formsetSaveObjs forms).isEmpty
  · rfl
  · exact (List.isEmpty_iff.mp h).symm

/-- An Item document as the list views use it: its pk, its user reference
(None when the ReferenceField is unset) and its text. -/
structure WebItem where
  pk : Nat
  user : Option Nat
  text : String
  deriving Repr, DecidableEq

/-- What a view run produces for the requester: a rendered/redirect
response, the Http404 raised for a missing or foreign item, or the
AttributeError the ownership check raises when the item's user field is
None (`i.user.id` on None). -/
inductive ViewOutcome where
  | ok : ViewOutcome
  | http404 : ViewOutcome
  | attrError : ViewOutcome
  deriving Repr, DecidableEq

/-- `Item.objects.get(pk=id)` over the store; None models the
Item.DoesNotExist the views turn into Http404. -/
def lookupItem (store : List WebItem) (id : Nat) : Option WebItem :=
  store.find? fun i => i.pk = id

/-- The shared guard of the item, edit and delete views
(src/list/views.py): Http404 when the id matches nothing; AttributeError
when the item's user reference is unset (`i.user.id` with i.user None);
Http404 when the referenced user is not the requester. -/
def itemGuard (store : List WebItem) (requester id : Nat) :
    Option WebItem ⊕ ViewOutcome :=
  match lookupItem store id with
  | none => .inr .http404
  | some i =>
    match i.user with
    | none => .inr .attrError
    | some u => if u ≠ requester then .inr .http404 else .inl (some i)

/-- Translation of the item view (src/list/views.py, lines 18-26):
guard, then render the item. -/
def itemView (store : List WebItem) (requester id : Nat) : ViewOutcome :=
  match itemGuard store requester id with
  | .inr o => o
  | .inl _ => .ok

/-- The request an edit view run services: a GET (render the form), a
POST whose form fails validation (re-render), or a POST with a valid new
text. -/
inductive EditRequest where
  | get : EditRequest
  | postInvalid : EditRequest
  | postValid (newText : String) : EditRequest
  deriving Repr, DecidableEq

/-- Translation of the edit view (src/list/views.py, lines 50-72): guard,
then on a valid POST assign the item's text and save it; anything else
renders without touching the store. -/
def editView (store : List WebItem) (requester id : Nat) (req : EditRequest) :
    ViewOutcome × List WebItem :=
  match itemGuard store requester id with
  | .inr o => (o, store)
  | .inl _ =>
    match req with
    | .get => (.ok, store)
    | .postInvalid => (.ok, store)
    | .postValid t =>
      (.ok, store.map fun j => if j.pk = id then { j with text := t } else j)

/-- Translation of the delete view (src/list/views.py, lines 74-83):
guard, then delete the item and redirect. -/
def deleteView (store : List WebItem) (requester id : Nat) :
    ViewOutcome × List WebItem :=
  match itemGuard store requester id with
  | .inr o => (o, store)
  | .inl _ => (.ok, store.filter fun j => j.pk ≠ id)

/-- C9: as stated, the claim fails on the code.  An existing item whose
user field does not reference the requesting user because it is UNSET
makes the ownership check `i.user.id != request.user.id` raise
AttributeError (a server error), not Http404. -/
theorem c9_views_counterexample :
    itemView [⟨1, none, "hi"⟩] 7 1 = .attrError ∧
      itemView [⟨1, none, "hi"⟩] 7 1 ≠ .http404 := by
  exact ⟨rfl, by decide⟩

/-- C9 amended: a request for a nonexistent id, or for an item whose user
field references a DIFFERENT user than the requester, yields Http404 from
all three views with the store untouched (nothing rendered, modified or
deleted); the three views answer with a rendering/redirect only for the
item's owner; an item whose user field is unset raises AttributeError
instead of Http404. -/
theorem c9_views_amended (store : List WebItem) (requester id : Nat)
    (req : EditRequest) :
    (lookupItem store id = none →
      itemView store requester id = .http404 ∧
      editView store requester id req = (.http404, store) ∧
      deleteView store requester id = (.http404, store)) ∧
    (∀ i u, lookupItem store id = some i → i.user = some u → u ≠ requester →
      itemView store requester id = .http404 ∧
      editView store requester id req = (.http404, store) ∧
      deleteView store requester id = (.http404, store)) ∧
    (∀ i, lookupItem store id = some i → i.user = none →
      itemView store requester id = .attrError ∧
      editView store requester id req = (.attrError, store) ∧
      deleteView store requester id = (.attrError, store)) ∧
    (itemView store requester id = .ok →
      ∃ i, lookupItem store id = some i ∧ i.user = some requester) := by
  refine ⟨fun hnone => ?_, fun i u hi hu hne => ?_, fun i hi hu => ?_, fun hok => ?_⟩
  · simp [itemView, editView, deleteView, itemGuard, hnone]
  · simp [itemView, editView, deleteView, itemGuard, hi, hu, hne]
  · simp [itemView, editView, deleteView, itemGuard, hi, hu]
  · unfold itemView itemGuard at hok
    cases hl : lookupItem store id with
    | none => rw [hl] at hok; simp at hok
    | some i =>
      rw [hl] at hok
      rcases i with ⟨ipk, iuser, itext⟩
      cases iuser with
      | none => simp at hok
      | some u =>
        by_cases hne : u ≠ requester
        · simp [hne] at hok
        · push_neg at hne
          exact ⟨⟨ipk, some u, itext⟩, rfl, by rw [hne]⟩

/-- Witness for the amended C9 theorem: a foreign item yields Http404
from all three views and leaves the store unchanged. -/
theorem c9_views_amended_witness :
    itemView [⟨1, some 2, "hi"⟩] 7 1 = .http404 ∧
      editView [⟨1, some 2, "hi"⟩] 7 1 .get = (.http404, [⟨1, some 2, "hi"⟩]) ∧
      deleteView [⟨1, some 2, "hi"⟩] 7 1 = (.http404, [⟨1, some 2, "hi"⟩]) :=
  (c9_views_amended [⟨1, some 2, "hi"⟩] 7 1 .get).2.1 ⟨1, some 2, "hi"⟩ 2
    (by decide) rfl (by decide)
